import Mathlib

/-!
Shallow embedding of `radio_screen_dump_gui17.py`: the outbound frame
encoder (XOR stream cipher + bit-serial CRC16 + framing), the inbound
byte-wise parser state machine, the UI helpers and the screen/VFO/battery
model, together with theorems settling the specification claims.

Machine integers are modelled as `Nat` with explicit `% 2^w` / bitwise
masking where the Python code masks; Python `int.to_bytes(2, "little")`,
which raises `OverflowError` for values `≥ 2^16`, is modelled as an
`Option`-returning conversion, and `send_command` consequently returns
`Option (List Nat)` (`none` = exception raised, nothing written to the
serial port). Python floats (`decode_battery` and the text scales) are
modelled as exact rationals; every numeric fact claimed about them holds
in both semantics. Byte strings are `List Nat`.
-/

namespace Radio

/-- XOR stream key for AB/CD packets (source: `XOR_ARRAY`). -/
def XOR_ARRAY : List Nat :=
  [0x16, 0x6c, 0x14, 0xe6, 0x2e, 0x91, 0x0d, 0x40,
   0x21, 0x35, 0xd5, 0x40, 0x13, 0x03, 0xe9, 0x80]

/-- Source: `crypt(b, i) = b ^ XOR_ARRAY[i & 0x0F]`. -/
def crypt (b i : Nat) : Nat := b ^^^ (XOR_ARRAY.getD (i &&& 0x0F) 0)

/-- One iteration of the inner loop of `crc16_byte`:
`crc <<= 1; if crc > 0xFFFF: crc ^= 0x1021; crc &= 0xFFFF`. -/
def crcShiftStep (crc : Nat) : Nat :=
  let c := crc <<< 1
  if 0xFFFF < c then (c ^^^ 0x1021) &&& 0xFFFF else c

/-- Source: `crc16_byte(byt, crc)`: `crc ^= byt << 8` then eight
iterations of `crcShiftStep`. -/
def crc16_byte (byt crc : Nat) : Nat :=
  crcShiftStep^[8] (crc ^^^ (byt <<< 8))

/-- CRC of a byte record: the source's `crc = 0; for bb in plain:
crc = crc16_byte(bb, crc)`. -/
def crcRecord (record : List Nat) : Nat :=
  record.foldl (fun c b => crc16_byte b c) 0

/-- Python `n.to_bytes(2, "little")`: two little-endian bytes, raising
(`none`) when `n` does not fit in 16 bits. -/
def toBytesLE2 (n : Nat) : Option (List Nat) :=
  if n < 65536 then some [n % 256, n / 256] else none

/-- The source's `for i, bb in enumerate(plain): enc.append(crypt(bb, i))`
loop, with explicit running index. -/
def encryptFrom (i : Nat) : List Nat → List Nat
  | [] => []
  | b :: bs => crypt b i :: encryptFrom (i + 1) bs

/-- Source: `send_command(ser, cmd, payload)`.  Returns the byte sequence
written to the serial port, or `none` when a `to_bytes` conversion raises
`OverflowError` (in which case the Python function raises before writing
anything). -/
def send_command (cmd : Nat) (payload : List Nat) : Option (List Nat) :=
  let prm_len := payload.length
  match toBytesLE2 cmd, toBytesLE2 prm_len with
  | some cmdB, some prmB =>
    let plain := cmdB ++ prmB ++ payload
    let crc := crcRecord plain
    let enc := encryptFrom 0 plain
    let xi := plain.length
    let enc2 := enc ++ [crypt (crc &&& 0xFF) xi, crypt ((crc >>> 8) &&& 0xFF) (xi + 1)]
    match toBytesLE2 (4 + prm_len) with
    | some lenB => some ([0xAB, 0xCD] ++ lenB ++ enc2 ++ [0xDC, 0xBA])
    | none => none
  | _, _ => none

/-! Specification-side rendering of claim C1's frame description, written
from the claim's words (plaintext record `S`, `E[i] = S[i] XOR key[i mod 16]`,
wrapper `AB CD ‖ 4+len LE u16 ‖ E ‖ DC BA`), to be compared with the
source embedding `send_command`.  The claim describes the CRC16 by the
identical bit-serial algorithm, so `crcRecord` is shared. -/

/-- Claim C1's plaintext record: `c` little-endian 2 bytes, `len(p)`
little-endian 2 bytes, then `p`. -/
def specRecord (cmd : Nat) (p : List Nat) : List Nat :=
  [cmd % 256, cmd / 256, p.length % 256, p.length / 256] ++ p

/-- Claim C1's `S`: the plaintext record followed by the low then high
byte of its CRC16. -/
def specS (cmd : Nat) (p : List Nat) : List Nat :=
  specRecord cmd p ++
    [crcRecord (specRecord cmd p) % 256, crcRecord (specRecord cmd p) / 256 % 256]

/-- Claim C1's encryption: `E[i] = S[i] XOR key[i mod 16]`. -/
def specEncrypt (S : List Nat) : List Nat :=
  (List.range S.length).map fun i => (S.getD i 0) ^^^ (XOR_ARRAY.getD (i % 16) 0)

/-- Claim C1's full frame:
`AB CD ‖ (4 + len p) LE u16 ‖ E ‖ DC BA`. -/
def specFrame (cmd : Nat) (p : List Nat) : List Nat :=
  [0xAB, 0xCD] ++ [(4 + p.length) % 256, (4 + p.length) / 256]
    ++ specEncrypt (specS cmd p) ++ [0xDC, 0xBA]

/-! ## Inbound stream parser (source class `Parser`) -/

/-- The parser stages, one constructor per source stage constant
(`IDLE, CD, LEN_LSB, LEN_MSB, DATA, CRC_LSB, CRC_MSB, DC, BA` for the
AB-CD family; `UI_TYPE, UI_V1, UI_V2, UI_V3, UI_LEN, UI_DATA` for the
0xB5 UI family). -/
inductive Stage where
  | IDLE | CD | LEN_LSB | LEN_MSB | DATA | CRC_LSB | CRC_MSB | DC | BA
  | UI_TYPE | UI_V1 | UI_V2 | UI_V3 | UI_LEN | UI_DATA
deriving DecidableEq, Repr

/-- The mutable fields of the source `Parser` object. -/
structure ParserState where
  stage : Stage
  p_len : Nat
  p_cnt : Nat
  ui_type : Nat
  v1 : Nat
  v2 : Nat
  v3 : Nat
  ui_len : Nat
  ui_buf : List Nat
  ui_need : Nat
deriving DecidableEq, Repr

/-- A fully decoded UI packet as handed to `on_ui_packet`:
`(ui_type, v1, v2, v3, ui_len, data)`. -/
structure RawUiPacket where
  kind : Nat
  v1 : Nat
  v2 : Nat
  v3 : Nat
  declaredLen : Nat
  data : List Nat
deriving DecidableEq, Repr

/-- The parser state at construction time (`Parser.__init__`). -/
def initState : ParserState :=
  { stage := .IDLE, p_len := 0, p_cnt := 0, ui_type := 0,
    v1 := 0, v2 := 0, v3 := 0, ui_len := 0, ui_buf := [], ui_need := 0 }

/-- Source: `Parser.feed(b)`.  The callback `on_ui_packet` is modelled as
the returned emission list (empty or a single packet). -/
def feed (st : ParserState) (b : Nat) : ParserState × List RawUiPacket :=
  match st.stage with
  | .IDLE =>
    if b = 0xAB then ({ st with stage := .CD }, [])
    else if b = 0xB5 then ({ st with stage := .UI_TYPE }, [])
    else (st, [])
  | .CD => ({ st with stage := if b = 0xCD then .LEN_LSB else .IDLE }, [])
  | .LEN_LSB => ({ st with p_len := b, stage := .LEN_MSB }, [])
  | .LEN_MSB =>
    ({ st with p_len := st.p_len ||| (b <<< 8), p_cnt := 0, stage := .DATA }, [])
  | .DATA =>
    let cnt := st.p_cnt + 1
    if st.p_len ≤ cnt then ({ st with p_cnt := cnt, stage := .CRC_LSB }, [])
    else ({ st with p_cnt := cnt }, [])
  | .CRC_LSB => ({ st with stage := .CRC_MSB }, [])
  | .CRC_MSB => ({ st with stage := .DC }, [])
  | .DC => ({ st with stage := if b = 0xDC then .BA else .IDLE }, [])
  | .BA => ({ st with stage := .IDLE }, [])
  | .UI_TYPE => ({ st with ui_type := b, stage := .UI_V1 }, [])
  | .UI_V1 => ({ st with v1 := b, stage := .UI_V2 }, [])
  | .UI_V2 => ({ st with v2 := b, stage := .UI_V3 }, [])
  | .UI_V3 => ({ st with v3 := b, stage := .UI_LEN }, [])
  | .UI_LEN =>
    let need := if st.ui_type = 6 then 0 else b
    if need = 0 then
      ({ st with ui_len := b, ui_buf := [], ui_need := need, stage := .IDLE },
       [⟨st.ui_type, st.v1, st.v2, st.v3, b, []⟩])
    else
      ({ st with ui_len := b, ui_buf := [], ui_need := need, stage := .UI_DATA }, [])
  | .UI_DATA =>
    let buf := st.ui_buf ++ [b]
    if st.ui_need ≤ buf.length then
      ({ st with ui_buf := buf, stage := .IDLE },
       [⟨st.ui_type, st.v1, st.v2, st.v3, st.ui_len, buf⟩])
    else ({ st with ui_buf := buf }, [])

/-- Feeding a byte sequence one byte at a time (the reader thread's
`for b in chunk: parser.feed(b)`), collecting emissions in order. -/
def feedList (st : ParserState) : List Nat → ParserState × List RawUiPacket
  | [] => (st, [])
  | b :: bs =>
    let r := feed st b
    let r2 := feedList r.1 bs
    (r2.1, r.2 ++ r2.2)

/-- Feeding a sequence of chunks, each chunk byte-by-byte. -/
def feedChunks (st : ParserState) : List (List Nat) → ParserState × List RawUiPacket
  | [] => (st, [])
  | c :: cs =>
    let r := feedList st c
    let r2 := feedChunks r.1 cs
    (r2.1, r.2 ++ r2.2)

/-! ## UI helpers -/

/-- Fuel-indexed version of the `while x > 128` loop in `ui_unpack_xy`;
each iteration decreases `x` by 128, so any fuel `≥ x` is sufficient
(lemma `ui_unpack_go_congr`). -/
def ui_unpack_go : Nat → Nat → Nat → Nat × Nat
  | 0, x, row => (x, row)
  | f + 1, x, row => if 128 < x then ui_unpack_go f (x - 128) (row + 1) else (x, row)

/-- Source: `ui_unpack_xy(v1, v2)`: `x = v1; row = v2; while x > 128:
row += 1; x -= 128; return x, row`. -/
def ui_unpack_xy (v1 v2 : Nat) : Nat × Nat := ui_unpack_go v1 v1 v2

/-- Source: `decode_battery(lenb) = (min(lenb * 0.04, 8.4), lenb / 2.1)`,
with the Python floats modelled as exact rationals. -/
def decode_battery (lenb : Nat) : ℚ × ℚ :=
  (min ((lenb : ℚ) * 0.04) 8.4, (lenb : ℚ) / 2.1)

/-- Source: `looks_like_freq(s) = ("." in s) and any(c.isdigit() for c in s)`,
expressed over the string's character list.  `Char.isDigit` coincides
with Python's `str.isdigit` on every string this program builds (ASCII
text with U+FFFD replacement characters). -/
def looks_like_freq (s : String) : Bool :=
  s.data.contains '.' && s.data.any (fun c => c.isDigit)

/-- Python `data.decode("ascii", errors="replace")`: bytes below 0x80 map
to themselves, anything else to U+FFFD. -/
def decodeAsciiReplace (data : List Nat) : String :=
  String.mk (data.map fun b => if b < 128 then Char.ofNat b else '�')

/-! ## Screen model (the mutable state of `main` and `process_events`) -/

/-- One canvas text item (source dataclass `DrawTextCmd`), with the float
scale as an exact rational. -/
structure DrawTextCmd where
  x : Nat
  row : Nat
  scale : ℚ
  text : String
deriving DecidableEq, Repr

/-- Canvas tag keys.  The source uses the strings `f"cursor_{r}"` and
`f"cell_{t}_{row}_{x}"`; decimal-with-underscore formatting is injective,
so the structured key is a faithful rendering. -/
inductive Tag where
  | cursor (r : Nat)
  | cell (kind row x : Nat)
deriving DecidableEq, Repr

/-- Insertion-ordered dictionary (Python `dict`): updating an existing
key keeps its position, a new key is appended. -/
def dictInsert {α : Type} (d : List (Nat × α)) (k : Nat) (v : α) : List (Nat × α) :=
  if d.any (fun p => p.1 = k) then d.map (fun p => if p.1 = k then (k, v) else p)
  else d ++ [(k, v)]

/-- Python `dict.get(k)`. -/
def dictGet {α : Type} (d : List (Nat × α)) (k : Nat) : Option α :=
  (d.find? (fun p => p.1 = k)).map (·.2)

/-- Tag-keyed insertion-ordered dictionary for the canvas buffer. -/
def tagInsert (d : List (Tag × DrawTextCmd)) (k : Tag) (v : DrawTextCmd) :
    List (Tag × DrawTextCmd) :=
  if d.any (fun p => p.1 = k) then d.map (fun p => if p.1 = k then (k, v) else p)
  else d ++ [(k, v)]

/-- The mutable screen/VFO/frequency state of `main`:
`view.buffer`, `cursor_rows`, `last_cursor_row`, `vfo_state["which"]`,
`last_freq_by_row`. -/
structure Model where
  buffer : List (Tag × DrawTextCmd)
  cursor_rows : List (Nat × Nat)
  last_cursor_row : Option Nat
  vfo_which : String
  last_freq_by_row : List (Nat × String)
deriving DecidableEq, Repr

/-- Initial model: empty dictionaries, `vfo_state = {"which": "?"}`,
`last_cursor_row = None`. -/
def initModel : Model :=
  { buffer := [], cursor_rows := [], last_cursor_row := none,
    vfo_which := "?", last_freq_by_row := [] }

/-- Source: `LCDView.clear_lines(y1, y2)` — drop every buffer entry whose
command row lies in `[y1, y2]`. -/
def clear_lines (buf : List (Tag × DrawTextCmd)) (y1 y2 : Nat) :
    List (Tag × DrawTextCmd) :=
  buf.filter (fun tc => ¬ (y1 ≤ tc.2.row ∧ tc.2.row ≤ y2))

/-- Source: `clear_cursor_rows(y1, y2)` — for each cursor row in range,
delete its `cursor_{r}` tag from the buffer and pop it from
`cursor_rows`.  Returns the new buffer and cursor map. -/
def clear_cursor_rows (buf : List (Tag × DrawTextCmd))
    (cursor_rows : List (Nat × Nat)) (y1 y2 : Nat) :
    List (Tag × DrawTextCmd) × List (Nat × Nat) :=
  let dead := (cursor_rows.filter (fun rc => y1 ≤ rc.1 ∧ rc.1 ≤ y2)).map (·.1)
  (buf.filter (fun tc => match tc.1 with
      | Tag.cursor r => ¬ r ∈ dead
      | Tag.cell _ _ _ => True),
   cursor_rows.filter (fun rc => ¬ rc.1 ∈ dead))

/-- Source: `derive_vfo_from_cursors()` — the first entry of the Python
list comprehension `[r for r, st in cursor_rows.items() if st != 0]`
(dict iteration order = key insertion order), else the remembered last
cursor row, else `"?"`; `"A"` for a row below 4, `"B"` otherwise. -/
def derive_vfo_from_cursors (cursor_rows : List (Nat × Nat))
    (last_cursor_row : Option Nat) : String :=
  let active_rows := (cursor_rows.filter (fun p => p.2 ≠ 0)).map (·.1)
  match active_rows with
  | r :: _ => if r < 4 then "A" else "B"
  | [] =>
    match last_cursor_row with
    | some r => if r < 4 then "A" else "B"
    | none => "?"

/-- One iteration of the `process_events` body on a decoded UI packet;
returns the updated model and the list of frequency-change notifications
printed in this step (`(which, text)` pairs). -/
def stepModel (m : Model) (p : RawUiPacket) : Model × List (String × String) :=
  if p.kind = 5 then
    let buf1 := clear_lines m.buffer p.v1 p.v2
    let r := clear_cursor_rows buf1 m.cursor_rows p.v1 p.v2
    ({ m with buffer := r.1, cursor_rows := r.2 }, [])
  else if p.kind = 6 then
    ({ m with vfo_which := derive_vfo_from_cursors m.cursor_rows m.last_cursor_row }, [])
  else if p.kind = 7 then
    let row := p.v1
    let style := p.v2
    let glyph := if style = 0 then "▻" else "➤"
    ({ m with cursor_rows := dictInsert m.cursor_rows row style,
              last_cursor_row := some row,
              buffer := tagInsert m.buffer (Tag.cursor row)
                ⟨0, row, 1, glyph⟩ }, [])
  else if p.kind = 0 ∨ p.kind = 1 ∨ p.kind = 2 ∨ p.kind = 3 then
    let xr := ui_unpack_xy p.v1 p.v2
    let x := xr.1
    let text := decodeAsciiReplace p.data
    let scale : ℚ := if p.kind = 0 then 1.5 else if p.kind = 3 then 2.0
      else (p.v3 : ℚ) / 6.0
    let row := xr.2 + 1
    let fr : List (Nat × String) × List (String × String) :=
      if p.kind = 3 ∧ looks_like_freq text then
        if dictGet m.last_freq_by_row row ≠ some text then
          (dictInsert m.last_freq_by_row row text,
           [(if row ≤ 2 then "TOP" else "BOT", text)])
        else (m.last_freq_by_row, [])
      else (m.last_freq_by_row, [])
    ({ m with last_freq_by_row := fr.1,
              buffer := tagInsert m.buffer (Tag.cell p.kind row x)
                ⟨x, row, scale, text⟩ }, fr.2)
  else (m, [])

/-! ## Specification-side and witness definitions -/

/-- Claim C3's derivation rule as stated: among rows with `style != 0`
pick the smallest, else the remembered last-seen row, else `"?"`;
`"A"` for a row below 4, `"B"` otherwise. -/
def derive_vfo_spec (cursor_rows : List (Nat × Nat)) (last : Option Nat) : String :=
  let active := (cursor_rows.filter (fun p => p.2 ≠ 0)).map (·.1)
  match active with
  | [] =>
    match last with
    | some r => if r < 4 then "A" else "B"
    | none => "?"
  | a :: as => if as.foldl min a < 4 then "A" else "B"

/-- The amended C3 rule: the first-created (insertion-order) entry with
`style != 0` decides, else the remembered last-seen row, else `"?"`. -/
def derive_vfo_amended (cursor_rows : List (Nat × Nat)) (last : Option Nat) : String :=
  match cursor_rows.filter (fun p => p.2 ≠ 0) with
  | e :: _ => if e.1 < 4 then "A" else "B"
  | [] =>
    match last with
    | some r => if r < 4 then "A" else "B"
    | none => "?"

/-- Applying a sequence of CURSOR packets `(row, style)` to the empty
cursor state, exactly as the kind-7 branch of `process_events` does:
`cursor_rows[row] = style; last_cursor_row["row"] = row`. -/
def applyCursorPackets (ps : List (Nat × Nat)) : List (Nat × Nat) × Option Nat :=
  ps.foldl (fun acc p => (dictInsert acc.1 p.1 p.2, some p.1)) ([], none)

/-- A kind-3 TEXT packet whose data decodes to `"123.450"`. -/
def freqPktA : RawUiPacket := ⟨3, 10, 1, 0, 7, [49, 50, 51, 46, 52, 53, 48]⟩

/-- A kind-3 TEXT packet (same position) whose data decodes to `"123.475"`. -/
def freqPktB : RawUiPacket := ⟨3, 10, 1, 0, 7, [49, 50, 51, 46, 52, 55, 53]⟩

/-- A CLEAR packet covering rows 0 through 7. -/
def clearPkt : RawUiPacket := ⟨5, 0, 7, 0, 0, []⟩

/-- A concrete screen state holding the frequency `"123.450"` at row 2,
with the matching cell and a cursor on the same row. -/
def witnessModel : Model :=
  { buffer := [(Tag.cell 3 2 10, ⟨10, 2, 2, "123.450"⟩),
               (Tag.cursor 2, ⟨0, 2, 1, "➤"⟩)],
    cursor_rows := [(2, 1)],
    last_cursor_row := some 2,
    vfo_which := "A",
    last_freq_by_row := [(2, "123.450")] }

/-! ## Arithmetic bridge lemmas -/

theorem toBytesLE2_of_lt {n : Nat} (h : n < 65536) :
    toBytesLE2 n = some [n % 256, n / 256] := by
  simp [toBytesLE2, h]

theorem land_fifteen (i : Nat) : i &&& 15 = i % 16 := by
  have h := Nat.and_pow_two_sub_one_eq_mod i 4
  norm_num at h
  exact h

theorem land_255 (x : Nat) : x &&& 255 = x % 256 := by
  have h := Nat.and_pow_two_sub_one_eq_mod x 8
  norm_num at h
  exact h

theorem shiftRight_8 (x : Nat) : x >>> 8 = x / 256 := by
  have h := Nat.shiftRight_eq_div_pow x 8
  norm_num at h
  exact h

theorem crypt_eq (b i : Nat) : crypt b i = b ^^^ XOR_ARRAY.getD (i % 16) 0 := by
  rw [crypt]
  norm_num [land_fifteen]

/-! ## Encryption loop lemmas -/

theorem encryptFrom_append (xs ys : List Nat) (i : Nat) :
    encryptFrom i (xs ++ ys) = encryptFrom i xs ++ encryptFrom (i + xs.length) ys := by
  induction xs generalizing i with
  | nil => simp [encryptFrom]
  | cons b bs ih =>
    have h : i + (b :: bs).length = (i + 1) + bs.length := by
      simp [List.length_cons]
      omega
    rw [List.cons_append]
    show crypt b i :: encryptFrom (i + 1) (bs ++ ys) = _
    rw [ih, h]
    rfl

theorem encryptFrom_eq_range (S : List Nat) (i : Nat) :
    encryptFrom i S =
      (List.range S.length).map
        (fun j => (S.getD j 0) ^^^ (XOR_ARRAY.getD ((i + j) % 16) 0)) := by
  induction S generalizing i with
  | nil => simp [encryptFrom]
  | cons b bs ih =>
    rw [List.length_cons, List.range_succ_eq_map]
    show crypt b i :: encryptFrom (i + 1) bs = _
    rw [List.map_cons, List.map_map, ih (i + 1)]
    congr 1
    · rw [crypt_eq]
      simp
    · apply List.map_congr_left
      intro j _
      simp only [Function.comp_apply, List.getD_cons_succ]
      congr 2
      omega

/-- At starting index 0, the source's encryption loop computes exactly
claim C1's `E[i] = S[i] XOR key[i mod 16]`. -/
theorem encryptFrom_zero (S : List Nat) : encryptFrom 0 S = specEncrypt S := by
  rw [specEncrypt, encryptFrom_eq_range]
  apply List.map_congr_left
  intro j _
  norm_num

/-- The source's plaintext record equals claim C1's record for any
command fitting in 16 bits. -/
theorem plain_eq_specRecord (cmd : Nat) (p : List Nat) :
    [cmd % 256, cmd / 256] ++ [p.length % 256, p.length / 256] ++ p
      = specRecord cmd p := by
  simp [specRecord]

/-- C1 (amended): for every command id `c < 2^16` and every payload `p`
with `4 + len(p) ≤ 0xFFFF`, `send_command` writes exactly `AB CD`, then
`4 + len(p)` as a little-endian u16, then `E`, then `DC BA`, where
`E[i] = S[i] XOR key[i mod 16]`, `S` is the plaintext record (`c` LE 2
bytes, `len(p)` LE 2 bytes, `p`) followed by the low then high CRC16
byte, and the CRC16 is the bit-serial algorithm over the plaintext
record. -/
theorem C1_send_command_frame (cmd : Nat) (p : List Nat)
    (hc : cmd < 65536) (hp4 : 4 + p.length < 65536) :
    send_command cmd p = some (specFrame cmd p) := by
  have hl : p.length < 65536 := by omega
  simp only [send_command, toBytesLE2_of_lt hc, toBytesLE2_of_lt hl,
    toBytesLE2_of_lt hp4]
  congr 1
  rw [plain_eq_specRecord cmd p, specFrame, ← encryptFrom_zero, specS,
    encryptFrom_append]
  rw [encryptFrom, encryptFrom, encryptFrom]
  simp [crypt_eq, land_255, shiftRight_8, List.append_assoc]

/-- When `4 + len(payload)` does not fit in 16 bits the length-field
conversion raises and nothing is written. -/
theorem send_command_overflow (cmd : Nat) (p : List Nat)
    (hc : cmd < 65536) (hl : p.length < 65536) (h : ¬ 4 + p.length < 65536) :
    send_command cmd p = none := by
  simp only [send_command, toBytesLE2_of_lt hc, toBytesLE2_of_lt hl]
  have h2 : toBytesLE2 (4 + p.length) = none := by
    simp only [toBytesLE2, if_neg h]
  simp only [h2]

/-- C1 counterexample to the claim as stated: a payload of 65532 bytes has
a length that fits in a u16, yet `4 + len` overflows the u16 length-field
conversion, so `send_command` raises `OverflowError` and writes nothing
(modelled as `none`) instead of the claimed frame. -/
theorem C1_counterexample :
    send_command 0 (List.replicate 65532 0) = none := by
  have hlen : (List.replicate 65532 (0 : Nat)).length = 65532 :=
    List.length_replicate 65532 0
  apply send_command_overflow
  · norm_num
  · rw [hlen]
    norm_num
  · rw [hlen]
    norm_num

/-- C1 witness: the amended theorem applied at the key-press command
`0x0801` with payload `2A 00`. -/
theorem C1_witness :
    ((0x0801 : Nat) < 65536 ∧ 4 + ([0x2A, 0x00] : List Nat).length < 65536) ∧
      send_command 0x0801 [0x2A, 0x00] = some (specFrame 0x0801 [0x2A, 0x00]) :=
  ⟨by decide, C1_send_command_frame 0x0801 [0x2A, 0x00] (by decide) (by decide)⟩

/-! ## Parser feeding lemmas and claims C2, C4, C6 -/

theorem feedList_cons (st : ParserState) (b : Nat) (bs : List Nat) :
    feedList st (b :: bs) =
      ((feedList (feed st b).1 bs).1,
       (feed st b).2 ++ (feedList (feed st b).1 bs).2) := rfl

theorem feedList_append (st : ParserState) (xs ys : List Nat) :
    feedList st (xs ++ ys) =
      ((feedList (feedList st xs).1 ys).1,
       (feedList st xs).2 ++ (feedList (feedList st xs).1 ys).2) := by
  induction xs generalizing st with
  | nil => simp [feedList]
  | cons b bs ih =>
    rw [List.cons_append, feedList_cons, feedList_cons, ih]
    simp [List.append_assoc]

theorem feedChunks_eq_flatten (st : ParserState) (cs : List (List Nat)) :
    feedChunks st cs = feedList st cs.flatten := by
  induction cs generalizing st with
  | nil => simp [feedChunks, feedList, List.flatten]
  | cons c cs ih =>
    simp only [List.flatten, feedChunks, ih, feedList_append]

/-- C2 (confirmed): feeding the same byte sequence split into any two
chunkings (in particular, one byte at a time versus arbitrary chunks)
from the initial parser state yields the same final parser state and the
same ordered emission sequence of `RawUiPacket` values. -/
theorem C2_chunking_determinism (cs1 cs2 : List (List Nat))
    (h : cs1.flatten = cs2.flatten) :
    feedChunks initState cs1 = feedChunks initState cs2 := by
  rw [feedChunks_eq_flatten, feedChunks_eq_flatten, h]

/-- C2 witness: one arbitrary chunking versus the one-byte-at-a-time
chunking of the same stream containing a STATUS packet. -/
theorem C2_witness :
    ([[0xB5, 6, 1], [2, 3, 210]] : List (List Nat)).flatten
        = ([[0xB5], [6], [1], [2], [3], [210]] : List (List Nat)).flatten ∧
      feedChunks initState [[0xB5, 6, 1], [2, 3, 210]]
        = feedChunks initState [[0xB5], [6], [1], [2], [3], [210]] :=
  ⟨by decide, C2_chunking_determinism _ _ (by decide)⟩

/-- C4 counterexample: after `AB CD 00 00` the parser's state is the data
state, not the first CRC byte state as claimed, so the next byte is
consumed (counted) as frame data. -/
theorem C4_counterexample :
    (feedList initState [0xAB, 0xCD, 0, 0]).1.stage = Stage.DATA ∧
      Stage.DATA ≠ Stage.CRC_LSB := by
  decide

/-- C4 (amended): in the Family A branch with captured length 0, the
parser still enters the data state after the high length byte; the next
byte (the CRC low byte) is counted as frame data (`p_cnt = 1`) and only
then does the machine move to the first CRC state, so the frame
`AB CD 00 00 crcLo crcHi DC BA` is traversed back to Idle with exactly
one byte counted as data and no emissions (the `DC` byte is consumed as
the second CRC byte and `BA` fails the `DC` check, returning to Idle). -/
theorem C4_zero_length_frame (a b : Nat) :
    (feedList initState [0xAB, 0xCD, 0, 0]).1.stage = Stage.DATA ∧
    (feedList initState [0xAB, 0xCD, 0, 0, a]).1.stage = Stage.CRC_LSB ∧
    (feedList initState [0xAB, 0xCD, 0, 0, a]).1.p_cnt = 1 ∧
    (feedList initState [0xAB, 0xCD, 0, 0, a, b, 0xDC, 0xBA]).1.stage
        = Stage.IDLE ∧
    (feedList initState [0xAB, 0xCD, 0, 0, a, b, 0xDC, 0xBA]).2 = [] := by
  simp [feedList, feed, initState]

/-- C6 (confirmed): a UI header with kind 6 makes the parser emit the
packet immediately on the declared-length byte, with empty data and the
declared byte preserved verbatim in `declaredLen`, for every declared
value; the parser returns to Idle so no later byte is consumed as
payload of this packet. -/
theorem C6_kind6_immediate (v1 v2 v3 L : Nat) :
    (feedList initState [0xB5, 6, v1, v2, v3, L]).2
        = [⟨6, v1, v2, v3, L, []⟩] ∧
      (feedList initState [0xB5, 6, v1, v2, v3, L]).1.stage = Stage.IDLE := by
  simp [feedList, feed, initState]

/-! ## Claim C5: resynchronization after stray bytes -/

/-- A byte that is neither sync byte leaves an Idle parser unchanged. -/
theorem feed_idle_stray (st : ParserState) (b : Nat) (hst : st.stage = .IDLE)
    (h1 : b ≠ 0xAB) (h2 : b ≠ 0xB5) : feed st b = (st, []) := by
  rw [feed, hst]
  simp [h1, h2]

/-- A run of non-sync bytes leaves an Idle parser unchanged and emits
nothing. -/
theorem feedList_stray (g : List Nat) (st : ParserState) (hst : st.stage = .IDLE)
    (hg : ∀ b ∈ g, b ≠ 0xAB ∧ b ≠ 0xB5) : feedList st g = (st, []) := by
  induction g with
  | nil => rfl
  | cons b bs ih =>
    have hb := hg b (by simp)
    have hbs : ∀ x ∈ bs, x ≠ 0xAB ∧ x ≠ 0xB5 :=
      fun x hx => hg x (List.mem_cons_of_mem b hx)
    rw [feedList_cons, feed_idle_stray st b hst hb.1 hb.2]
    simp [ih hbs]

/-- One byte fed in the UI data stage is appended to the buffer; when the
required count is reached the packet is emitted. -/
theorem feed_ui_data (st : ParserState) (d : Nat) (hst : st.stage = .UI_DATA) :
    feed st d =
      if st.ui_need ≤ (st.ui_buf ++ [d]).length then
        ({ st with ui_buf := st.ui_buf ++ [d], stage := .IDLE },
         [⟨st.ui_type, st.v1, st.v2, st.v3, st.ui_len, st.ui_buf ++ [d]⟩])
      else ({ st with ui_buf := st.ui_buf ++ [d] }, []) := by
  rw [feed, hst]

/-- Feeding exactly the missing number of data bytes to a parser in the
UI data stage accumulates them and emits the completed packet. -/
theorem feedList_ui_data (ds : List Nat) (st : ParserState)
    (hst : st.stage = .UI_DATA)
    (hlen : st.ui_buf.length + ds.length = st.ui_need)
    (hne : ds ≠ []) :
    feedList st ds =
      ({ st with ui_buf := st.ui_buf ++ ds, stage := .IDLE },
       [⟨st.ui_type, st.v1, st.v2, st.v3, st.ui_len, st.ui_buf ++ ds⟩]) := by
  induction ds generalizing st with
  | nil => cases hne rfl
  | cons d ds ih =>
    rw [feedList_cons, feed_ui_data st d hst]
    simp only [List.length_cons] at hlen
    cases ds with
    | nil =>
      have hcond : st.ui_need ≤ (st.ui_buf ++ [d]).length := by
        simp only [List.length_append, List.length_cons, List.length_nil] at hlen ⊢
        omega
      rw [if_pos hcond]
      simp [feedList]
    | cons d2 ds2 =>
      have hcond : ¬ st.ui_need ≤ (st.ui_buf ++ [d]).length := by
        simp only [List.length_append, List.length_cons, List.length_nil] at hlen ⊢
        omega
      rw [if_neg hcond]
      rw [ih { st with ui_buf := st.ui_buf ++ [d] } hst
        (by simp only [List.length_append, List.length_cons, List.length_nil]
              at hlen ⊢
            omega)
        (by simp)]
      simp [List.append_assoc]

/-- C5 (amended): a prefix of stray bytes, where a stray byte is one that
is neither sync byte `0xAB` nor `0xB5` (so it cannot begin a frame),
followed by one well-formed UI packet, emits exactly that packet and
returns the parser to Idle; the stray bytes cause no emissions. -/
theorem C5_resync (g : List Nat) (hg : ∀ b ∈ g, b ≠ 0xAB ∧ b ≠ 0xB5)
    (k v1 v2 v3 L : Nat) (data : List Nat)
    (hlen : data.length = if k = 6 then 0 else L) :
    (feedList initState (g ++ ([0xB5, k, v1, v2, v3, L] ++ data))).2
        = [⟨k, v1, v2, v3, L, data⟩] ∧
      (feedList initState (g ++ ([0xB5, k, v1, v2, v3, L] ++ data))).1.stage
        = Stage.IDLE := by
  rw [feedList_append, feedList_stray g initState rfl hg]
  rw [feedList_append]
  by_cases hk : k = 6
  · have hd : data = [] := by
      rw [hk] at hlen
      simpa using hlen
    subst hd
    subst hk
    constructor <;> simp [feedList, feed, initState]
  · by_cases hL : L = 0
    · have hd : data = [] := by
        rw [if_neg hk] at hlen
        rw [hL] at hlen
        exact List.eq_nil_of_length_eq_zero hlen
      subst hd
      subst hL
      constructor <;> simp [feedList, feed, initState, hk]
    · have hd : data.length = L := by
        rw [if_neg hk] at hlen
        exact hlen
      have hhdr : feedList initState [0xB5, k, v1, v2, v3, L] =
          ({ stage := .UI_DATA, p_len := 0, p_cnt := 0, ui_type := k,
             v1 := v1, v2 := v2, v3 := v3, ui_len := L, ui_buf := [],
             ui_need := L }, []) := by
        simp [feedList, feed, initState, hk, hL]
      rw [hhdr]
      have hdata := feedList_ui_data data
        { stage := .UI_DATA, p_len := 0, p_cnt := 0, ui_type := k,
          v1 := v1, v2 := v2, v3 := v3, ui_len := L, ui_buf := [],
          ui_need := L } rfl (by simp [hd]) (by
            intro hnil
            rw [hnil] at hd
            simp at hd
            exact hL hd.symm)
      simp only [] at hdata
      rw [hdata]
      simp

/-- C5 counterexample to the claim as stated: the prefix `[0xB5]` does
not form a complete packet of either family, yet feeding it before a
well-formed UI packet `B5 03 01 02 03 01 41` yields zero emissions
instead of the claimed single packet (the stray sync byte swallows the
packet's own sync byte). -/
theorem C5_counterexample :
    (feedList initState ([0xB5] ++ [0xB5, 3, 1, 2, 3, 1, 65])).2 = [] ∧
      (feedList initState ([0xB5] ++ [0xB5, 3, 1, 2, 3, 1, 65])).2
        ≠ [⟨3, 1, 2, 3, 1, [65]⟩] := by
  decide

/-- C5 witness: three stray non-sync bytes followed by a kind-3 UI packet
with a two-byte payload. -/
theorem C5_witness :
    ((∀ b ∈ ([1, 0xDC, 7] : List Nat), b ≠ 0xAB ∧ b ≠ 0xB5) ∧
      ([0x31, 0x2E] : List Nat).length = (if (3 : Nat) = 6 then 0 else 2)) ∧
      ((feedList initState
            ([1, 0xDC, 7] ++ ([0xB5, 3, 1, 2, 3, 2] ++ [0x31, 0x2E]))).2
          = [⟨3, 1, 2, 3, 2, [0x31, 0x2E]⟩] ∧
        (feedList initState
            ([1, 0xDC, 7] ++ ([0xB5, 3, 1, 2, 3, 2] ++ [0x31, 0x2E]))).1.stage
          = Stage.IDLE) :=
  ⟨⟨by decide, by decide⟩,
   C5_resync [1, 0xDC, 7] (by decide) 3 1 2 3 2 [0x31, 0x2E] (by decide)⟩

/-! ## Claim C3: VFO derivation -/

/-- C3 counterexample: CURSOR packets arriving as row 5 (style 2) then
row 1 (style 2) leave both rows active; the smallest active row is 1, so
the claim requires `"A"`, but the code picks the first-inserted active
row 5 and yields `"B"`. -/
theorem C3_counterexample :
    derive_vfo_from_cursors (applyCursorPackets [(5, 2), (1, 2)]).1
        (applyCursorPackets [(5, 2), (1, 2)]).2 = "B" ∧
      derive_vfo_spec (applyCursorPackets [(5, 2), (1, 2)]).1
        (applyCursorPackets [(5, 2), (1, 2)]).2 = "A" ∧
      derive_vfo_from_cursors (applyCursorPackets [(5, 2), (1, 2)]).1
          (applyCursorPackets [(5, 2), (1, 2)]).2
        ≠ derive_vfo_spec (applyCursorPackets [(5, 2), (1, 2)]).1
          (applyCursorPackets [(5, 2), (1, 2)]).2 := by
  decide

/-- C3 (amended): for every cursor map and remembered row, the VFO is
derived from the first-created (insertion-order) row with `style != 0`
if any such row exists, else from the remembered last-seen cursor row if
one exists, else it is `"?"`; the determined row `r` gives `"A"` when
`r < 4` and `"B"` otherwise. -/
theorem C3_vfo_first_active (cursor_rows : List (Nat × Nat)) (last : Option Nat) :
    derive_vfo_from_cursors cursor_rows last = derive_vfo_amended cursor_rows last := by
  rw [derive_vfo_from_cursors.eq_def, derive_vfo_amended.eq_def]
  cases h : cursor_rows.filter (fun p => p.2 ≠ 0) with
  | nil => simp [h]
  | cons e es => simp [h]

/-! ## Claim C7: coordinate unwrap, row offset and scale -/

/-- Sufficient fuel (at least `x`) makes the fuel-indexed loop result
independent of the fuel, so `ui_unpack_xy` is the source's while-loop. -/
theorem ui_unpack_go_congr (f1 f2 x row : Nat) (h1 : x ≤ f1) (h2 : x ≤ f2) :
    ui_unpack_go f1 x row = ui_unpack_go f2 x row := by
  induction f1 generalizing f2 x row with
  | zero =>
    have hx : x = 0 := Nat.le_zero.mp h1
    subst hx
    cases f2 with
    | zero => rfl
    | succ f => simp [ui_unpack_go]
  | succ f1 ih =>
    cases f2 with
    | zero =>
      have hx : x = 0 := Nat.le_zero.mp h2
      subst hx
      simp [ui_unpack_go]
    | succ f2 =>
      rw [ui_unpack_go, ui_unpack_go]
      by_cases hx : 128 < x
      · rw [if_pos hx, if_pos hx]
        exact ih f2 (x - 128) (row + 1) (by omega) (by omega)
      · rw [if_neg hx, if_neg hx]

/-- The while-loop step: for `x > 128`, subtract 128 and bump the row. -/
theorem ui_unpack_xy_gt (x row : Nat) (h : 128 < x) :
    ui_unpack_xy x row = ui_unpack_xy (x - 128) (row + 1) := by
  rw [ui_unpack_xy, ui_unpack_xy]
  cases x with
  | zero => omega
  | succ f =>
    rw [ui_unpack_go, if_pos h]
    exact ui_unpack_go_congr f (f + 1 - 128) (f + 1 - 128) (row + 1)
      (by omega) (by omega)

/-- The while-loop exit: for `x ≤ 128` the pair is returned unchanged. -/
theorem ui_unpack_xy_le (x row : Nat) (h : x ≤ 128) :
    ui_unpack_xy x row = (x, row) := by
  rw [ui_unpack_xy]
  cases x with
  | zero => rfl
  | succ f =>
    rw [ui_unpack_go, if_neg (by omega)]

/-- C7 (confirmed): TEXT coordinate resolution repeatedly subtracts 128
from `v1` and increments the row seeded from `v2` until `v1 ≤ 128`; the
final value is the column and the incremented value the base row; every
TEXT kind then draws at base row + 1, with scale 1.5 for kind 0, 2.0 for
kind 3 and `v3 / 6` for kinds 1 and 2; in particular `v1 = 300, v2 = 2`
resolves to `x = 44`, base row 4, final row 5. -/
theorem C7_coordinate_unwrap (k : Nat) (hk : k = 0 ∨ k = 1 ∨ k = 2 ∨ k = 3)
    (m : Model) (v1 v2 v3 dl : Nat) (data : List Nat) :
    (∀ x row, 128 < x → ui_unpack_xy x row = ui_unpack_xy (x - 128) (row + 1)) ∧
    (∀ x row, x ≤ 128 → ui_unpack_xy x row = (x, row)) ∧
    ui_unpack_xy 300 2 = (44, 4) ∧
    (ui_unpack_xy 300 2).2 + 1 = 5 ∧
    (stepModel m ⟨k, v1, v2, v3, dl, data⟩).1.buffer =
      tagInsert m.buffer
        (Tag.cell k ((ui_unpack_xy v1 v2).2 + 1) (ui_unpack_xy v1 v2).1)
        ⟨(ui_unpack_xy v1 v2).1, (ui_unpack_xy v1 v2).2 + 1,
         (if k = 0 then 1.5 else if k = 3 then 2.0 else (v3 : ℚ) / 6.0),
         decodeAsciiReplace data⟩ := by
  refine ⟨ui_unpack_xy_gt, ui_unpack_xy_le, by decide, by decide, ?_⟩
  rcases hk with h | h | h | h <;> subst h <;> simp [stepModel]

/-- C7 witness: the amended theorem applied at kind 3 on the initial
model. -/
theorem C7_witness :
    ((3 : Nat) = 0 ∨ (3 : Nat) = 1 ∨ (3 : Nat) = 2 ∨ (3 : Nat) = 3) ∧
      ((∀ x row, 128 < x → ui_unpack_xy x row = ui_unpack_xy (x - 128) (row + 1)) ∧
      (∀ x row, x ≤ 128 → ui_unpack_xy x row = (x, row)) ∧
      ui_unpack_xy 300 2 = (44, 4) ∧
      (ui_unpack_xy 300 2).2 + 1 = 5 ∧
      (stepModel initModel ⟨3, 10, 1, 0, 7, [49, 50, 51, 46, 52, 53, 48]⟩).1.buffer =
        tagInsert initModel.buffer
          (Tag.cell 3 ((ui_unpack_xy 10 1).2 + 1) (ui_unpack_xy 10 1).1)
          ⟨(ui_unpack_xy 10 1).1, (ui_unpack_xy 10 1).2 + 1,
           (if (3 : Nat) = 0 then 1.5 else if (3 : Nat) = 3 then 2.0
            else ((0 : Nat) : ℚ) / 6.0),
           decodeAsciiReplace [49, 50, 51, 46, 52, 53, 48]⟩) :=
  ⟨by decide,
   C7_coordinate_unwrap 3 (by decide) initModel 10 1 0 7 [49, 50, 51, 46, 52, 53, 48]⟩

/-! ## Claim C8: frequency-change detection and dedup -/

/-- Packets whose kind is not 3 never produce a frequency notification. -/
theorem stepModel_notif_ne3 (m : Model) (q : RawUiPacket) (h : q.kind ≠ 3) :
    (stepModel m q).2 = [] := by
  by_cases h5 : q.kind = 5
  · simp [stepModel, h5]
  · by_cases h6 : q.kind = 6
    · simp [stepModel, h5, h6]
    · by_cases h7 : q.kind = 7
      · simp [stepModel, h5, h6, h7]
      · by_cases h0 : q.kind = 0
        · simp [stepModel, h5, h6, h7, h0]
        · by_cases h1 : q.kind = 1
          · simp [stepModel, h5, h6, h7, h0, h1]
          · by_cases h2 : q.kind = 2
            · simp [stepModel, h5, h6, h7, h0, h1, h2]
            · simp [stepModel, h5, h6, h7, h0, h1, h2, h]

/-- C8 (confirmed): a frequency notification is emitted exactly for a
kind-3 packet whose decoded text contains a decimal point and a digit
and differs from the remembered value for the resolved row (including
"no value remembered"); on emission the memory is updated and the
notification is tagged `"TOP"` for resolved row ≤ 2, else `"BOT"`;
consecutive identical kind-3 frequency texts notify once, a third
identical one not at all, and a later different text notifies again. -/
theorem C8_freq_dedup (m : Model) (p : RawUiPacket) (hk : p.kind = 3) :
    ((stepModel m p).2 =
      if looks_like_freq (decodeAsciiReplace p.data) = true ∧
          dictGet m.last_freq_by_row ((ui_unpack_xy p.v1 p.v2).2 + 1)
            ≠ some (decodeAsciiReplace p.data) then
        [(if (ui_unpack_xy p.v1 p.v2).2 + 1 ≤ 2 then "TOP" else "BOT",
          decodeAsciiReplace p.data)]
      else []) ∧
    ((stepModel m p).1.last_freq_by_row =
      if looks_like_freq (decodeAsciiReplace p.data) = true ∧
          dictGet m.last_freq_by_row ((ui_unpack_xy p.v1 p.v2).2 + 1)
            ≠ some (decodeAsciiReplace p.data) then
        dictInsert m.last_freq_by_row ((ui_unpack_xy p.v1 p.v2).2 + 1)
          (decodeAsciiReplace p.data)
      else m.last_freq_by_row) ∧
    (∀ (m2 : Model) (q : RawUiPacket), q.kind ≠ 3 → (stepModel m2 q).2 = []) ∧
    (stepModel initModel freqPktA).2 = [("TOP", "123.450")] ∧
    (stepModel (stepModel initModel freqPktA).1 freqPktA).2 = [] ∧
    (stepModel (stepModel (stepModel initModel freqPktA).1 freqPktA).1
        freqPktA).2 = [] ∧
    (stepModel (stepModel (stepModel (stepModel initModel freqPktA).1
        freqPktA).1 freqPktA).1 freqPktB).2 = [("TOP", "123.475")] := by
  refine ⟨?_, ?_, fun m2 q hq => stepModel_notif_ne3 m2 q hq,
    by decide, by decide, by decide, by decide⟩
  · by_cases hf : looks_like_freq (decodeAsciiReplace p.data) = true
    · by_cases hd : dictGet m.last_freq_by_row ((ui_unpack_xy p.v1 p.v2).2 + 1)
          = some (decodeAsciiReplace p.data)
      · simp [stepModel, hk, hf, hd]
      · simp [stepModel, hk, hf, hd]
    · simp [stepModel, hk, hf]
  · by_cases hf : looks_like_freq (decodeAsciiReplace p.data) = true
    · by_cases hd : dictGet m.last_freq_by_row ((ui_unpack_xy p.v1 p.v2).2 + 1)
          = some (decodeAsciiReplace p.data)
      · simp [stepModel, hk, hf, hd]
      · simp [stepModel, hk, hf, hd]
    · simp [stepModel, hk, hf]

/-- C8 witness: the characterization applied to the initial model and the
concrete frequency packet. -/
theorem C8_witness :
    freqPktA.kind = 3 ∧
      (stepModel initModel freqPktA).2 =
        (if looks_like_freq (decodeAsciiReplace freqPktA.data) = true ∧
            dictGet initModel.last_freq_by_row
                ((ui_unpack_xy freqPktA.v1 freqPktA.v2).2 + 1)
              ≠ some (decodeAsciiReplace freqPktA.data) then
          [(if (ui_unpack_xy freqPktA.v1 freqPktA.v2).2 + 1 ≤ 2 then "TOP"
            else "BOT", decodeAsciiReplace freqPktA.data)]
        else []) :=
  ⟨by decide, (C8_freq_dedup initModel freqPktA (by decide)).1⟩

/-! ## Claim C9: battery decoding -/

/-- C9 (confirmed): for a STATUS declared-length byte `L ≤ 255` the
battery sample is `volts = min(L * 0.04, 8.4)` (clamped at 8.4) and
`percent = L / 2.1` (not clamped); `L = 210` gives exactly 100 percent
and `L = 255` gives volts 8.4 rather than 10.2, with percent 850/7 above
100. -/
theorem C9_battery (L : Nat) (_hL : L ≤ 255) :
    decode_battery L = (min ((L : ℚ) * 0.04) 8.4, (L : ℚ) / 2.1) ∧
    decode_battery 210 = (8.4, 100) ∧
    (decode_battery 255).1 = 8.4 ∧
    (decode_battery 255).1 ≠ 10.2 ∧
    (decode_battery 255).2 = 850 / 7 ∧
    (100 : ℚ) < (decode_battery 255).2 := by
  refine ⟨rfl, ?_, ?_, ?_, ?_, ?_⟩ <;> norm_num [decode_battery]

/-- C9 witness: the theorem applied at the exact-100-percent input. -/
theorem C9_witness :
    (210 : Nat) ≤ 255 ∧
      (decode_battery 210 =
          (min ((210 : ℚ) * 0.04) 8.4, ((210 : Nat) : ℚ) / 2.1) ∧
        decode_battery 210 = (8.4, 100) ∧
        (decode_battery 255).1 = 8.4 ∧
        (decode_battery 255).1 ≠ 10.2 ∧
        (decode_battery 255).2 = 850 / 7 ∧
        (100 : ℚ) < (decode_battery 255).2) :=
  ⟨by decide, C9_battery 210 (by decide)⟩

/-! ## Claim C10: CLEAR leaves the frequency memory intact -/

/-- C10 (confirmed): a CLEAR packet removes only screen cells and cursor
entries; the frequency memory is unchanged for every row, so a kind-3
packet whose text equals the value remembered for its resolved row
before the CLEAR still produces no frequency notification after it. -/
theorem C10_clear_preserves_freq (m : Model) (c p : RawUiPacket)
    (hc : c.kind = 5) (hp : p.kind = 3)
    (hmem : dictGet m.last_freq_by_row ((ui_unpack_xy p.v1 p.v2).2 + 1)
        = some (decodeAsciiReplace p.data)) :
    (stepModel m c).1.last_freq_by_row = m.last_freq_by_row ∧
      (stepModel (stepModel m c).1 p).2 = [] := by
  have h1 : (stepModel m c).1.last_freq_by_row = m.last_freq_by_row := by
    simp [stepModel, hc]
  refine ⟨h1, ?_⟩
  by_cases hf : looks_like_freq (decodeAsciiReplace p.data) = true
  · simp [stepModel, hc, hp, hf, hmem]
  · simp [stepModel, hc, hp, hf]

/-- C10 witness: a concrete screen state remembering `"123.450"` at row 2,
cleared over rows 0–7, then fed the same frequency text. -/
theorem C10_witness :
    (clearPkt.kind = 5 ∧ freqPktA.kind = 3 ∧
      dictGet witnessModel.last_freq_by_row
          ((ui_unpack_xy freqPktA.v1 freqPktA.v2).2 + 1)
        = some (decodeAsciiReplace freqPktA.data)) ∧
      ((stepModel witnessModel clearPkt).1.last_freq_by_row
          = witnessModel.last_freq_by_row ∧
        (stepModel (stepModel witnessModel clearPkt).1 freqPktA).2 = []) :=
  ⟨⟨by decide, by decide, by decide⟩,
   C10_clear_preserves_freq witnessModel clearPkt freqPktA
     (by decide) (by decide) (by decide)⟩

end Radio
